import Mathlib

/-!
Verification of the EinZinY core proxy engine (`src/EinZinY/engine.js`).

JavaScript strings are modelled as `List Char` (a JS string is a sequence of
code units); JS header objects (`IncomingMessage.headers`) are modelled as
association lists `List (String × String)` with exact-key lookup, update and
delete, matching JS property access. Node.js stores incoming header names
lower-cased, so an upstream `Public-Key-Pins` header appears under the key
`"public-key-pins"`. Buffers are modelled as `List Nat` (byte sequences).
-/

/-- JS `str.split(/,|;/)`: split a character sequence at every `,` or `;`,
keeping empty groups, and always returning at least one group. -/
def splitAny : List Char → List (List Char)
  | [] => [[]]
  | c :: rest =>
    if c = ',' ∨ c = ';' then [] :: splitAny rest
    else
      match splitAny rest with
      | [] => [[c]]
      | g :: gs => (c :: g) :: gs

/-- JS `str.split(":")`: split a character sequence at every `:`. -/
def splitColon : List Char → List (List Char)
  | [] => [[]]
  | c :: rest =>
    if c = ':' then [] :: splitColon rest
    else
      match splitColon rest with
      | [] => [[c]]
      | g :: gs => (c :: g) :: gs

/-- JS `parts.join(":")`. -/
def joinColon : List (List Char) → List Char
  | [] => []
  | [g] => g
  | g :: gs => g ++ ':' :: joinColon gs

/-- JS `String.prototype.trim()`: drop whitespace from both ends. -/
def jTrim (l : List Char) : List Char :=
  ((l.dropWhile Char.isWhitespace).reverse.dropWhile Char.isWhitespace).reverse

/-- The regular expression `/^\d+$/` used by `connectEngine`: a nonempty
all-digit character sequence. -/
def isAllDigits (l : List Char) : Bool :=
  !l.isEmpty && l.all (fun c => c.isDigit)

/-- JS `parseInt` on a string already known to match `/^\d+$/`: its decimal
value. -/
def digitsToNat (l : List Char) : Nat :=
  l.foldl (fun n c => 10 * n + (c.toNat - 48)) 0

/-- The scanning loop of `getType` (engine.js lines 36-48): walk the split
entries left to right carrying `bestGuess`, stopping at the first precise
`type/subtype` entry. -/
def getTypeLoop : List (List Char) → Option (List Char) → Option (List Char)
  | [], best => best
  | part :: rest, best =>
    let entry := jTrim part
    if best = none ∧ entry = ['*', '/', '*'] then
      getTypeLoop rest (some entry)
    else if List.isSuffixOf ['/', '*'] entry = true ∧ (best = none ∨ best = some ['*', '/', '*']) then
      getTypeLoop rest (some entry)
    else if entry.contains '/' = true ∧ entry.contains '*' = false then
      some entry
    else
      getTypeLoop rest best

/-- `getType(str, def, noWildcard)` from engine.js lines 32-54: pick a MIME
type out of an `Accept`/`Content-Type` style header value.  Callers passing
`undefined` for `str` or `def` get the JS default parameters `""` and
`"text/html"`. -/
def getType (str dflt : List Char) (noWildcard : Bool) : List Char :=
  match getTypeLoop (splitAny str) none with
  | none => dflt
  | some bestGuess =>
    if noWildcard = true ∧ bestGuess.contains '*' = true then dflt else bestGuess

/-- `isText(mimeType)` from engine.js lines 62-69: a falsy (empty) MIME type
is not text; otherwise text iff it starts with `text/` or ends with
`/xhtml+xml` or `/xml`. -/
def isText (mimeType : List Char) : Bool :=
  if mimeType.isEmpty then false
  else
    List.isPrefixOf "text/".data mimeType
      || List.isSuffixOf "/xhtml+xml".data mimeType
      || List.isSuffixOf "/xml".data mimeType

/-- A fully specified `type/subtype` entry: contains `/` and no `*`
(the break condition of the `getType` loop). -/
def isFullySpecified (e : List Char) : Bool :=
  e.contains '/' && !(e.contains '*')

/-- A `type/*` wildcard entry other than `*/*`. -/
def isTypeStar (e : List Char) : Bool :=
  List.isSuffixOf ['/', '*'] e && e != ['*', '/', '*']

/-- The claim's description of `getType`: split on `,` and `;`, trim, then
prefer the first fully-specified entry, then the first `type/*` entry, then
`*/*`; fall back to the default when nothing was selected or when
`noWildcard` rejects a wildcard selection. -/
def getTypeSpec (str dflt : List Char) (noWildcard : Bool) : List Char :=
  let entries := (splitAny str).map jTrim
  let sel := (entries.find? isFullySpecified) <|>
    ((entries.find? isTypeStar) <|>
      (if entries.contains ['*', '/', '*'] then some ['*', '/', '*'] else none))
  match sel with
  | none => dflt
  | some b => if noWildcard = true ∧ b.contains '*' = true then dflt else b

/-- JS property read `headers[k]`: value of the first binding of key `k`. -/
def hGet (hs : List (String × String)) (k : String) : Option String :=
  (hs.find? (fun p => p.1 = k)).map (fun p => p.2)

/-- JS property write `headers[k] = v`: replace the binding of `k` in place,
or append a fresh binding when `k` is absent. -/
def hSet : List (String × String) → String → String → List (String × String)
  | [], k, v => [(k, v)]
  | (k1, v1) :: rest, k, v =>
    if k1 = k then (k, v) :: rest else (k1, v1) :: hSet rest k v

/-- JS `delete headers[k]`: remove exactly the bindings of key `k`
(exact, case-sensitive string match, as JS property deletion is). -/
def hDelete (hs : List (String × String)) (k : String) : List (String × String) :=
  hs.filter (fun p => p.1 ≠ k)

/-- JS `str.toLowerCase()` on header values. -/
def jsToLower (s : String) : String := String.mk (s.data.map Char.toLower)

/-- Case-insensitive header lookup, used only to state HTTP-level presence of
a header (HTTP header field names are case-insensitive). -/
def hGetCI (hs : List (String × String)) (k : String) : Option String :=
  (hs.find? (fun p => jsToLower p.1 = jsToLower k)).map (fun p => p.2)

/-- Target parsing of `connectEngine` (engine.js lines 333-344): split the
CONNECT url on `:`; when the last segment matches `/^\d+$/` it is popped and
parsed, and an out-of-range value falls back to port 443; the remaining
segments joined with `:` are the host. -/
def connectParse (u : List Char) : List Char × Nat :=
  let parts := splitColon u
  if isAllDigits (parts.getLastD []) = true then
    let port := digitsToNat (parts.getLastD [])
    (joinColon parts.dropLast, if port > 65535 then 443 else port)
  else
    (joinColon parts, 443)

/-- The frozen claim's reading of the CONNECT target parse: the final
segment is consumed as the port only when it is all digits AND its value is
in `[0, 65535]`; otherwise nothing is consumed and the port is 443. -/
def connectParseClaim (u : List Char) : List Char × Nat :=
  let parts := splitColon u
  if isAllDigits (parts.getLastD []) = true ∧ digitsToNat (parts.getLastD []) ≤ 65535 then
    (joinColon parts.dropLast, digitsToNat (parts.getLastD []))
  else
    (joinColon parts, 443)

/-- Amended description of the CONNECT target parse: an all-digits final
segment is always consumed; its value becomes the port when at most 65535
and otherwise the port defaults to 443; a non-digit final segment leaves
every segment in the host and the port at 443. -/
def connectParseAmended (u : List Char) : List Char × Nat :=
  let parts := splitColon u
  if isAllDigits (parts.getLastD []) = true then
    (joinColon parts.dropLast,
      if digitsToNat (parts.getLastD []) ≤ 65535 then digitsToNat (parts.getLastD []) else 443)
  else
    (joinColon parts, 443)

/-- The TLS test of `connectEngine.onHandshake` (engine.js line 424):
`head[0] === 0x16 && head[1] === 0x03 && head[2] < 0x06`. -/
def tlsTest (head : List Nat) : Bool :=
  decide (head.getD 0 0 = 0x16 ∧ head.getD 1 0 = 0x03 ∧ head.getD 2 0 < 0x06)

/-- Where `connectEngine.onHandshake` sends the tunnelled connection. -/
inductive HandshakeDispatch where
  /-- Loopback to the dynamic TLS server on port 12346. -/
  | tlsDispatch
  /-- Loopback to the main proxy server on port 12345 (WebSocket/cleartext). -/
  | webSocketDispatch
deriving DecidableEq, Repr

/-- `connectEngine.onHandshake` (engine.js lines 421-457), restricted to its
classification decision: TLS loopback when the TLS test passes, WebSocket
loopback otherwise. -/
def connectEngine.onHandshake (head : List Nat) : HandshakeDispatch :=
  if tlsTest head = true then .tlsDispatch else .webSocketDispatch

/-- The `global.RequestDecision` variants dispatched on by the engine. -/
inductive RequestDecisionKind where
  | Allow
  | Empty
  | Deny
  | Redirect
  | Pipe
deriving DecidableEq, Repr

/-- A patcher decision as consumed by `requestEngine`: the variant tag plus
the optional header set, the redirect location (`none` models JS `null`) and
the redirect text. -/
structure Decision where
  result : RequestDecisionKind
  headers : Option (List (String × String))
  redirectLocation : Option String
  redirectText : String
deriving DecidableEq, Repr

/-- The fields of a legacy Node `url.parse` result that `Object.assign`
copies onto the upstream options (engine.js line 143).  The parse result
owns exactly the URL-derived properties, so the assignment can never touch
`method`, `headers` or `agent`. -/
structure UrlParts where
  protocol : Option String
  auth : Option String
  host : Option String
  port : Option String
  hostname : Option String
  path : Option String
  href : String
deriving DecidableEq, Repr

/-- The upstream request options assembled by `requestEngine` (engine.js
lines 82-93): the parsed client URL plus method and headers copied from the
client request.  `options.headers` aliases `localReq.headers` in the source;
the model threads the updated header list into the options explicitly. -/
structure Options where
  protocol : Option String
  auth : Option String
  host : Option String
  port : Option String
  hostname : Option String
  path : Option String
  href : String
  method : String
  headers : List (String × String)
deriving DecidableEq, Repr

/-- `Object.assign(options, url.parse(loc))`: overwrite the URL-derived
fields, leaving `method` and `headers` untouched. -/
def assignUrl (o : Options) (u : UrlParts) : Options :=
  { o with
    protocol := u.protocol, auth := u.auth, host := u.host, port := u.port,
    hostname := u.hostname, path := u.path, href := u.href }

/-- The synthesized default header set for `Empty` and textual `Redirect`
responses (engine.js lines 122-125 and 134-137): a `Content-Type` picked
from the client's `Accept` header with `noWildcard` set (JS default
parameters give `str = ""` when `Accept` is absent and `def =
"text/html"`), plus a fake `Server` header. -/
def defaultSynthHeaders (localHeaders : List (String × String)) : List (String × String) :=
  [("Content-Type", String.mk (getType ((hGet localHeaders "accept").getD "").data "text/html".data true)),
   ("Server", "Apache/2.4.7 (Ubuntu)")]

/-- The complete client-visible effect of the `onRequest` decision handler:
either an upstream request is issued (carrying the final options and the
written payload), or a synthesized response is written and ended, or the
response stream is destroyed with nothing written, or an unknown decision
throws. -/
inductive ReqOutcome where
  | upstream (opts : Options) (payload : List Nat)
  | respond (status : Nat) (statusMessage : String) (headers : List (String × String)) (body : String)
  | destroy
  | fatal
deriving DecidableEq, Repr

/-- The decision branch of `requestEngine` (engine.js lines 114-148): the
body of the `onRequest` completion callback, from the unconditional
`accept-encoding` overwrite through the `switch` on the decision, up to the
point where the upstream request would be issued.  `payload` is the
(possibly patcher-rewritten) request body. -/
def requestEngine.onDecision (localHeaders : List (String × String)) (options : Options)
    (decision : Decision) (payload : List Nat) (urlParse : String → UrlParts) : ReqOutcome :=
  let headers1 := hSet localHeaders "accept-encoding" "gzip, deflate"
  let options1 := { options with headers := headers1 }
  match decision.result with
  | .Allow => .upstream options1 payload
  | .Empty => .respond 200 "OK" (decision.headers.getD (defaultSynthHeaders headers1)) ""
  | .Deny => .destroy
  | .Redirect =>
    match decision.redirectLocation with
    | none => .respond 200 "OK" (decision.headers.getD (defaultSynthHeaders headers1)) decision.redirectText
    | some loc => .upstream (assignUrl options1 (urlParse loc)) payload
  | .Pipe => .fatal

/-- Reads the `accept-encoding` header of the outgoing upstream request, or
`none` when the outcome issued no upstream request at all. -/
def upstreamAcceptEncoding : ReqOutcome → Option (Option String)
  | .upstream opts _ => some (hGet opts.headers "accept-encoding")
  | _ => none

/-- Text classification of an upstream response (engine.js line 161):
`isText(getType(remoteRes.headers["content-type"]))` with the JS default
parameters filling in `""` and `"text/html"`. -/
def respIsText (headers : List (String × String)) : Bool :=
  isText (getType ((hGet headers "content-type").getD "").data "text/html".data false)

/-- What the response-body handler does after buffering the upstream body. -/
inductive RespAction where
  /-- Hand these bytes and headers to `onTextResponse` via `finalize`. -/
  | patchText (bytes : List Nat) (headers : List (String × String))
  /-- Hand these bytes and headers to `onOtherResponse` via `finalize`. -/
  | patchOther (bytes : List Nat) (headers : List (String × String))
  /-- Log a warning and destroy the client response stream. -/
  | warnAndDestroy
deriving DecidableEq, Repr

/-- Is the action a dispatch to `onOtherResponse`? -/
def RespAction.isPatchOther : RespAction → Bool
  | .patchOther _ _ => true
  | _ => false

/-- The `remoteRes` end handler of `requestEngine` (engine.js lines 156-187):
classify the buffered body as text or not; for text, read
`content-encoding` case-insensitively, overwrite it with `identity`, and
inflate `gzip`/`deflate` bodies through `zlib.unzip` (modelled by the
partial decoder `unzip`, `none` meaning a decode error). -/
def requestEngine.onRemoteEnd (unzip : List Nat → Option (List Nat))
    (headers : List (String × String)) (data : List Nat) : RespAction :=
  if respIsText headers = true then
    let encoding := (hGet headers "content-encoding").map jsToLower
    let headers1 := hSet headers "content-encoding" "identity"
    if encoding = some "gzip" ∨ encoding = some "deflate" then
      match unzip data with
      | none => .warnAndDestroy
      | some result => .patchText result headers1
    else
      .patchText data headers1
  else
    .patchOther data headers

/-- The head of the response written to the client by `finalize`. -/
structure ClientResponse where
  status : Nat
  statusMessage : String
  headers : List (String × String)
  body : List Nat
deriving DecidableEq, Repr

/-- The `onDone` closure of `requestEngine.finalize` (engine.js lines
226-236): set `content-length` to the byte length of the final (post-patch)
body, `delete` the key `"Public-Key-Pins"`, then write status line, headers
and body to the client.  `responseData` is the body as returned by the
response patcher. -/
def requestEngine.finalizeOnDone (remoteHeaders : List (String × String))
    (status : Nat) (statusMessage : String) (responseData : List Nat) : ClientResponse :=
  let h1 := hSet remoteHeaders "content-length" (toString responseData.length)
  let h2 := hDelete h1 "Public-Key-Pins"
  ⟨status, statusMessage, h2, responseData⟩

/-- Observable state of the dynamic TLS server's certificate management:
the `knownHosts` array, the signing requests currently in flight (issued to
`tls.sign` but whose callbacks have not yet run), and the log of every
`tls.sign` invocation in order. -/
structure DynState where
  knownHosts : List String
  pendingSigns : List String
  signLog : List String
deriving DecidableEq, Repr

/-- Events of a `DynamicServer.prepare` schedule: a `prepare(host)` call, or
the asynchronous completion of an earlier `tls.sign(host)`. -/
inductive DynEvent where
  | prepare (host : String)
  | signDone (host : String)
deriving DecidableEq, Repr

/-- One step of `DynamicServer.prepare` (engine.js lines 294-307): a
`prepare` finding the host in `knownHosts` only schedules its callback; an
unknown host triggers `tls.sign` immediately.  The host is pushed onto
`knownHosts` (and the cert installed) only when the sign callback runs. -/
def DynamicServer.prepareStep (s : DynState) : DynEvent → DynState
  | .prepare host =>
    if s.knownHosts.contains host then s
    else { s with pendingSigns := s.pendingSigns ++ [host], signLog := s.signLog ++ [host] }
  | .signDone host =>
    if s.pendingSigns.contains host then
      { knownHosts := s.knownHosts ++ [host],
        pendingSigns := s.pendingSigns.erase host,
        signLog := s.signLog }
    else s

/-- Run a schedule of prepare/sign-completion events from the initial state
(no known hosts, no pending signs, empty sign log). -/
def dynRun (events : List DynEvent) : DynState :=
  events.foldl DynamicServer.prepareStep ⟨[], [], []⟩

/-- Client-socket-observable events of one CONNECT transaction, in program
order.  A `splice*` event is the establishment of the bidirectional pipe to
the named peer; every byte the client receives from that peer arrives after
its splice event. -/
inductive CEvent where
  | pauseClient
  /-- The `HTTP/<v> 200 Connection Established` status line. -/
  | write200 (httpVersion : String)
  | writeKeepAlive
  | writeProxyKeepAlive
  /-- The blank line ending the 200 header block. -/
  | writeHeaderEnd
  | resumeClient
  | destroyClient
  /-- Opaque pipe to the requested host and port (`Pipe` decision). -/
  | spliceUpstream (host : List Char) (port : Nat)
  /-- `dynamicServer.prepare(host)` completed. -/
  | prepareHost (host : List Char)
  /-- Loopback pipe to the dynamic TLS server (port 12346). -/
  | spliceDyn
  /-- Loopback pipe to the main proxy server (port 12345). -/
  | spliceMain
  /-- Re-emission of the buffered head bytes into the pipe. -/
  | emitHead (bytes : List Nat)
deriving DecidableEq, Repr

/-- Events produced by `connectEngine.onHandshake` (engine.js lines
421-457): prepare-then-loopback to the dynamic server for TLS heads, direct
loopback to the main server otherwise. -/
def onHandshakeTrace (head : List Nat) (host : List Char) : List CEvent :=
  match connectEngine.onHandshake head with
  | .tlsDispatch => [.prepareHost host, .spliceDyn, .emitHead head, .resumeClient]
  | .webSocketDispatch => [.spliceMain, .emitHead head, .resumeClient]

/-- The accumulation loop of `connectEngine` (engine.js lines 376-388):
concatenate arriving chunks onto the buffered data until at least 3 bytes
are available, then pause the socket and classify.  An exhausted arrival
schedule leaves the handler waiting with no further events. -/
def accumulateTrace (data : List Nat) (arrivals : List (List Nat)) (host : List Char) : List CEvent :=
  match arrivals with
  | [] => []
  | chunk :: rest =>
    let d := data ++ chunk
    if d.length < 3 then accumulateTrace d rest host
    else .pauseClient :: onHandshakeTrace d host

/-- The decision given to `connectEngine` by `onConnect`. -/
inductive ConnectDecision where
  | Allow
  | Deny
  | Pipe
deriving DecidableEq, Repr

/-- Event trace of one CONNECT transaction (engine.js lines 331-404): parse
the target, pause the client socket, then branch on the `onConnect`
decision.  Under `Allow`, a head of at least 3 bytes is classified
immediately; a shorter head makes the engine write the `200 Connection
Established` block (preserving requested keep-alive headers), resume the
socket and accumulate bytes until classification is possible. -/
def connectEngineTrace (u : List Char) (httpVersion : String)
    (headers : List (String × String)) (head : List Nat)
    (decision : ConnectDecision) (arrivals : List (List Nat)) : List CEvent :=
  let hp := connectParse u
  .pauseClient ::
    match decision with
    | .Deny => [.destroyClient]
    | .Pipe => [.spliceUpstream hp.1 hp.2, .emitHead head, .resumeClient]
    | .Allow =>
      if 3 ≤ head.length then onHandshakeTrace head hp.1
      else
        .write200 httpVersion ::
          ((if hGet headers "connection" = some "keep-alive" then [.writeKeepAlive] else []) ++
           (if hGet headers "proxy-connection" = some "keep-alive" then [.writeProxyKeepAlive] else []) ++
           [.writeHeaderEnd, .resumeClient] ++
           accumulateTrace head arrivals hp.1)

/-- Is this event the write of the 200 Connection Established status line? -/
def CEvent.isWrite200 : CEvent → Bool
  | .write200 _ => true
  | _ => false

/-- Is this event the establishment of a pipe from which upstream or
loopback bytes will subsequently be forwarded to the client? -/
def CEvent.isSplice : CEvent → Bool
  | .spliceUpstream _ _ => true
  | .spliceDyn => true
  | .spliceMain => true
  | _ => false

/-- Helper for `precededBy`: `seen` records whether a `p`-event has already
occurred. -/
def precededByGo (p q : CEvent → Bool) (seen : Bool) : List CEvent → Bool
  | [] => true
  | e :: rest => if q e && !seen then false else precededByGo p q (seen || p e) rest

/-- Every `q`-event in the trace is strictly preceded by some `p`-event. -/
def precededBy (p q : CEvent → Bool) (tr : List CEvent) : Bool :=
  precededByGo p q false tr

/-- A JS property write makes the value readable under the same key. -/
theorem hGet_hSet_self (hs : List (String × String)) (k v : String) :
    hGet (hSet hs k v) k = some v := by
  induction hs with
  | nil => simp [hGet, hSet, List.find?]
  | cons p rest ih =>
    obtain ⟨k1, v1⟩ := p
    by_cases h : k1 = k
    · simp [hSet, h, hGet, List.find?]
    · simpa [hSet, h, hGet, List.find?] using ih

/-- Deleting one key leaves every other key's value unchanged. -/
theorem hGet_hDelete_ne (hs : List (String × String)) (k k' : String) (h : k ≠ k') :
    hGet (hDelete hs k') k = hGet hs k := by
  induction hs with
  | nil => rfl
  | cons p rest ih =>
    obtain ⟨k1, v1⟩ := p
    by_cases h1 : k1 = k'
    · simpa [hDelete, hGet, List.filter_cons, List.find?_cons, h1, Ne.symm h] using ih
    · by_cases h2 : k1 = k
      · simp [hDelete, hGet, List.filter_cons, List.find?_cons, h1, h2, h]
      · simpa [hDelete, hGet, List.filter_cons, List.find?_cons, h1, h2] using ih

/-- C1: in every forwarded response, `content-length` equals the byte length
of the body actually written; but the `Public-Key-Pins` half of the claim
fails: `finalize` deletes the capitalized key `"Public-Key-Pins"` while
Node presents incoming headers under lower-cased names, so an upstream
`public-key-pins` header (read case-insensitively, as HTTP header names
are) is still present in the forwarded response. -/
theorem finalize_content_length_and_pkp_bug :
    (∀ (hs : List (String × String)) (st : Nat) (sm : String) (data : List Nat),
        hGet (requestEngine.finalizeOnDone hs st sm data).headers "content-length"
            = some (toString data.length) ∧
        (requestEngine.finalizeOnDone hs st sm data).body = data) ∧
    hGetCI (requestEngine.finalizeOnDone [("public-key-pins", "pin-sha256=x")] 200 "OK"
        [104, 105]).headers "Public-Key-Pins" = some "pin-sha256=x" := by
  constructor
  · intro hs st sm data
    refine ⟨?_, rfl⟩
    show hGet (hDelete (hSet hs "content-length" (toString data.length)) "Public-Key-Pins")
        "content-length" = _
    rw [hGet_hDelete_ne _ _ _ (by decide)]
    exact hGet_hSet_self ..
  · decide

/-- C5 (amended): the CONNECT target parse consumes an all-digits final
segment unconditionally; the port is its value when at most 65535 and 443
otherwise; a non-digit final segment leaves the port at 443 and all
segments (IPv6 literals included) rejoined as the host. -/
theorem connectParse_amended_eq (u : List Char) :
    connectParse u = connectParseAmended u := by
  simp only [connectParse, connectParseAmended]
  by_cases h : isAllDigits ((splitColon u).getLastD []) = true
  · rw [if_pos h, if_pos h]
    rcases Nat.lt_or_ge 65535 (digitsToNat ((splitColon u).getLastD [])) with h2 | h2
    · rw [if_pos h2, if_neg (by omega)]
    · rw [if_neg (by omega), if_pos h2]
  · rw [if_neg h, if_neg h]

/-- C4: for every CONNECT head buffer of at least 3 bytes, the engine
dispatches to the TLS path iff `head[0] = 0x16`, `head[1] = 0x03` and
`head[2] < 0x06`, and to the WebSocket/cleartext loopback otherwise. -/
theorem onHandshake_tls_classification (head : List Nat) (h : 3 ≤ head.length) :
    (connectEngine.onHandshake head = .tlsDispatch ↔
      (head.getD 0 0 = 0x16 ∧ head.getD 1 0 = 0x03 ∧ head.getD 2 0 < 0x06)) ∧
    (connectEngine.onHandshake head = .webSocketDispatch ↔
      ¬(head.getD 0 0 = 0x16 ∧ head.getD 1 0 = 0x03 ∧ head.getD 2 0 < 0x06)) := by
  unfold connectEngine.onHandshake tlsTest
  by_cases hc : head.getD 0 0 = 0x16 ∧ head.getD 1 0 = 0x03 ∧ head.getD 2 0 < 0x06
  · simp [hc]
  · simp [hc]

/-- Witness for C4 at the boundary heads `{0x16, 0x03, 0x05}` (TLS) and
`{0x16, 0x03, 0x06}` (non-TLS). -/
theorem onHandshake_tls_classification_witness :
    connectEngine.onHandshake [0x16, 0x03, 0x05] = .tlsDispatch ∧
    connectEngine.onHandshake [0x16, 0x03, 0x06] = .webSocketDispatch :=
  ⟨(onHandshake_tls_classification [0x16, 0x03, 0x05] (by decide)).1.mpr (by decide),
   (onHandshake_tls_classification [0x16, 0x03, 0x06] (by decide)).2.mpr (by decide)⟩

/-- C5 counterexample: on `"example.test:99999"` the code consumes the
all-digits out-of-range segment (host `"example.test"`, port 443), while
the claim as stated leaves it unconsumed (host `"example.test:99999"`). -/
theorem connectParse_claim_counterexample :
    connectParse "example.test:99999".data ≠ connectParseClaim "example.test:99999".data ∧
    connectParse "example.test:99999".data = ("example.test".data, 443) ∧
    connectParseClaim "example.test:99999".data = ("example.test:99999".data, 443) := by
  refine ⟨?_, ?_, ?_⟩ <;> decide

/-- C7: two concurrent `prepare("example.test")` calls (the second arriving
before the first `tls.sign` completes) invoke `sign` twice for the same
host, violating the at-most-once claim; a second `prepare` after the first
sign has completed does not sign again. -/
theorem prepare_concurrent_double_sign :
    ((dynRun [.prepare "example.test", .prepare "example.test"]).signLog.count "example.test" = 2) ∧
    ((dynRun [.prepare "example.test", .signDone "example.test",
        .prepare "example.test"]).signLog.count "example.test" = 1) := by
  constructor <;> decide

/-- C8: when the request patcher returns `Deny`, the decision handler
destroys the client response stream: no bytes are written and no upstream
request is issued. -/
theorem request_deny_destroys (localHeaders : List (String × String)) (options : Options)
    (decision : Decision) (payload : List Nat) (urlParse : String → UrlParts)
    (h : decision.result = .Deny) :
    requestEngine.onDecision localHeaders options decision payload urlParse = .destroy := by
  unfold requestEngine.onDecision
  rw [h]

/-- Witness for C8 at a concrete `Deny` decision. -/
theorem request_deny_destroys_witness :
    requestEngine.onDecision [] ⟨none, none, none, none, none, none, "", "GET", []⟩
      ⟨.Deny, none, none, ""⟩ [] (fun _ => ⟨none, none, none, none, none, none, ""⟩) = .destroy :=
  request_deny_destroys _ _ _ _ _ rfl

/-- C3: whenever the engine issues an upstream request (decision `Allow`,
or `Redirect` with a location), the outgoing request headers carry
`accept-encoding: gzip, deflate`, regardless of the client's original
value. -/
theorem upstream_accept_encoding_overwritten (localHeaders : List (String × String))
    (options : Options) (decision : Decision) (payload : List Nat) (urlParse : String → UrlParts)
    (h : decision.result = .Allow ∨
      (decision.result = .Redirect ∧ decision.redirectLocation ≠ none)) :
    upstreamAcceptEncoding (requestEngine.onDecision localHeaders options decision payload urlParse)
      = some (some "gzip, deflate") := by
  rcases h with h | ⟨h, hloc⟩
  · simp only [requestEngine.onDecision, h, upstreamAcceptEncoding]
    exact congrArg some (hGet_hSet_self ..)
  · obtain ⟨loc, hl⟩ := Option.ne_none_iff_exists'.mp hloc
    simp only [requestEngine.onDecision, h, hl, upstreamAcceptEncoding, assignUrl]
    exact congrArg some (hGet_hSet_self ..)

/-- Witness for C3: an `Allow` decision on a client that sent
`accept-encoding: br`. -/
theorem upstream_accept_encoding_overwritten_witness :
    upstreamAcceptEncoding (requestEngine.onDecision [("accept-encoding", "br")]
      ⟨none, none, none, none, none, none, "", "GET", []⟩
      ⟨.Allow, none, none, ""⟩ [] (fun _ => ⟨none, none, none, none, none, none, ""⟩))
      = some (some "gzip, deflate") :=
  upstream_accept_encoding_overwritten _ _ _ _ _ (Or.inl rfl)

/-- C2: for a text-classified response whose `content-encoding`, compared
case-insensitively, is gzip or deflate, the bytes handed to
`onTextResponse` are the decoder's output on the buffered body and the
forwarded `content-encoding` is `identity`; a decode failure logs a
warning and destroys the client side without invoking `onTextResponse`. -/
theorem text_response_decompression (unzip : List Nat → Option (List Nat))
    (headers : List (String × String)) (data : List Nat)
    (htext : respIsText headers = true)
    (henc : (hGet headers "content-encoding").map jsToLower = some "gzip" ∨
            (hGet headers "content-encoding").map jsToLower = some "deflate") :
    requestEngine.onRemoteEnd unzip headers data =
      (match unzip data with
       | none => RespAction.warnAndDestroy
       | some result => RespAction.patchText result (hSet headers "content-encoding" "identity")) ∧
    hGet (hSet headers "content-encoding" "identity") "content-encoding" = some "identity" := by
  refine ⟨?_, hGet_hSet_self ..⟩
  simp only [requestEngine.onRemoteEnd, htext, if_true]
  rw [if_pos henc]

/-- Witness for C2: a gzip response (mixed-case `GZip` header) whose
decoder succeeds. -/
theorem text_response_decompression_witness :
    requestEngine.onRemoteEnd (fun _ => some [60, 98, 62])
      [("content-type", "text/html"), ("content-encoding", "GZip")] [31, 139] =
      RespAction.patchText [60, 98, 62]
        [("content-type", "text/html"), ("content-encoding", "identity")] ∧
    hGet (hSet [("content-type", "text/html"), ("content-encoding", "GZip")]
      "content-encoding" "identity") "content-encoding" = some "identity" :=
  text_response_decompression (fun _ => some [60, 98, 62]) _ _ (by decide) (Or.inl (by decide))

/-- C10: a response with no `content-type` header at all is classified as
text (the MIME parser defaults to `text/html`, which `isText` accepts), so
its body is never dispatched to `onOtherResponse`. -/
theorem missing_content_type_classified_text (headers : List (String × String))
    (unzip : List Nat → Option (List Nat)) (data : List Nat)
    (h : hGet headers "content-type" = none) :
    respIsText headers = true ∧
    (requestEngine.onRemoteEnd unzip headers data).isPatchOther = false := by
  have ht : respIsText headers = true := by
    unfold respIsText
    rw [h]
    decide
  refine ⟨ht, ?_⟩
  simp only [requestEngine.onRemoteEnd, ht, if_true]
  split
  · cases unzip data <;> simp [RespAction.isPatchOther]
  · simp [RespAction.isPatchOther]

/-- Witness for C10 at an empty header list. -/
theorem missing_content_type_classified_text_witness :
    respIsText [] = true ∧
    (requestEngine.onRemoteEnd (fun _ => none) [] []).isPatchOther = false :=
  missing_content_type_classified_text [] (fun _ => none) [] rfl

/-- Once a `p`-event has been seen, `precededByGo` accepts any tail. -/
theorem precededByGo_of_seen (p q : CEvent → Bool) (l : List CEvent) :
    precededByGo p q true l = true := by
  induction l with
  | nil => rfl
  | cons e rest ih => simp [precededByGo, ih]

/-- C6 counterexample: an Allow CONNECT whose head already holds the 3
bytes `0x16 0x03 0x01` at decision time establishes the loopback splice
without ever writing the `200 Connection Established` reply, so the claim
as stated fails on this transaction. -/
theorem connect_200_claim_counterexample :
    (connectEngineTrace "example.test:443".data "1.1" [] [0x16, 0x03, 0x01]
      .Allow []).any CEvent.isSplice = true ∧
    precededBy CEvent.isWrite200 CEvent.isSplice
      (connectEngineTrace "example.test:443".data "1.1" [] [0x16, 0x03, 0x01] .Allow []) = false := by
  constructor <;> decide

/-- C6 (amended): for every intercepted CONNECT transaction (decision
`Allow`) whose buffered head is shorter than 3 bytes at decision time, the
`200 Connection Established` reply is written before any splice is
established, hence before any loopback or opaque-upstream byte reaches the
client. -/
theorem connect_200_before_splice (u : List Char) (httpVersion : String)
    (headers : List (String × String)) (head : List Nat) (arrivals : List (List Nat))
    (h : head.length < 3) :
    precededBy CEvent.isWrite200 CEvent.isSplice
      (connectEngineTrace u httpVersion headers head .Allow arrivals) = true := by
  simp only [connectEngineTrace, precededBy]
  rw [if_neg (by omega : ¬ 3 ≤ head.length)]
  simp [precededByGo, CEvent.isWrite200, CEvent.isSplice, precededByGo_of_seen]

/-- Witness for C6 (amended): an empty head with the TLS bytes arriving
afterwards. -/
theorem connect_200_before_splice_witness :
    precededBy CEvent.isWrite200 CEvent.isSplice
      (connectEngineTrace "example.test:443".data "1.1" [] [] .Allow [[0x16, 0x03, 0x01]]) = true :=
  connect_200_before_splice _ _ _ _ _ (by decide)

/-- A string ending in the two characters slash-star contains a star. -/
theorem contains_star_of_suffix (e : List Char) (h : List.isSuffixOf ['/', '*'] e = true) :
    e.contains '*' = true := by
  obtain ⟨t, ht⟩ := List.isSuffixOf_iff_suffix.mp h
  subst ht
  simp

/-- A `type/star` entry ends in slash-star. -/
theorem isTypeStar_suffix (e : List Char) (h : isTypeStar e = true) :
    List.isSuffixOf ['/', '*'] e = true := by
  cases h1 : List.isSuffixOf ['/', '*'] e
  · unfold isTypeStar at h
    rw [h1] at h
    simp at h
  · rfl

/-- A `type/star` entry is not the full wildcard. -/
theorem isTypeStar_ne_star (e : List Char) (h : isTypeStar e = true) :
    e ≠ ['*', '/', '*'] := by
  intro hx
  rw [hx] at h
  exact absurd h (by decide)

/-- An entry containing a star is not fully specified. -/
theorem fs_false_of_star (e : List Char) (h : e.contains '*' = true) :
    isFullySpecified e = false := by
  unfold isFullySpecified
  rw [h]
  simp

/-- A fully specified entry contains a slash. -/
theorem isFullySpecified_slash (e : List Char) (h : isFullySpecified e = true) :
    e.contains '/' = true := by
  cases h1 : e.contains '/'
  · unfold isFullySpecified at h
    rw [h1] at h
    simp at h
  · rfl

/-- A fully specified entry contains no star. -/
theorem isFullySpecified_nostar (e : List Char) (h : isFullySpecified e = true) :
    e.contains '*' = false := by
  cases h1 : e.contains '*'
  · rfl
  · unfold isFullySpecified at h
    rw [h1] at h
    simp at h

/-- An entry that is neither the full wildcard nor a `type/star` entry
does not end in slash-star. -/
theorem suffix_false_of_not_ts (e : List Char) (hne : e ≠ ['*', '/', '*'])
    (h : isTypeStar e = false) : List.isSuffixOf ['/', '*'] e = false := by
  cases h1 : List.isSuffixOf ['/', '*'] e
  · rfl
  · unfold isTypeStar at h
    rw [h1] at h
    simp [hne] at h

/-- The break condition of the loop fails on a non-fully-specified entry. -/
theorem not_fs_conditions (e : List Char) (h : isFullySpecified e = false) :
    ¬ (e.contains '/' = true ∧ e.contains '*' = false) := by
  intro hx
  unfold isFullySpecified at h
  rw [hx.1, hx.2] at h
  simp at h

/-- Loop step: the first branch takes the full wildcard when nothing is held. -/
theorem getTypeLoop_cons_hit1 (part : List Char) (rest : List (List Char)) (best : Option (List Char))
    (h1 : best = none ∧ jTrim part = ['*', '/', '*']) :
    getTypeLoop (part :: rest) best = getTypeLoop rest (some (jTrim part)) := by
  simp only [getTypeLoop]
  rw [if_pos h1]

/-- Loop step: the second branch upgrades to a slash-star entry. -/
theorem getTypeLoop_cons_hit2 (part : List Char) (rest : List (List Char)) (best : Option (List Char))
    (h1 : ¬(best = none ∧ jTrim part = ['*', '/', '*']))
    (h2 : List.isSuffixOf ['/', '*'] (jTrim part) = true ∧
      (best = none ∨ best = some ['*', '/', '*'])) :
    getTypeLoop (part :: rest) best = getTypeLoop rest (some (jTrim part)) := by
  simp only [getTypeLoop]
  rw [if_neg h1, if_pos h2]

/-- Loop step: the third branch stops at a fully specified entry. -/
theorem getTypeLoop_cons_hit3 (part : List Char) (rest : List (List Char)) (best : Option (List Char))
    (h1 : ¬(best = none ∧ jTrim part = ['*', '/', '*']))
    (h2 : ¬(List.isSuffixOf ['/', '*'] (jTrim part) = true ∧
      (best = none ∨ best = some ['*', '/', '*'])))
    (h3 : (jTrim part).contains '/' = true ∧ (jTrim part).contains '*' = false) :
    getTypeLoop (part :: rest) best = some (jTrim part) := by
  simp only [getTypeLoop]
  rw [if_neg h1, if_neg h2, if_pos h3]

/-- Loop step: an entry matching no branch is skipped. -/
theorem getTypeLoop_cons_skip (part : List Char) (rest : List (List Char)) (best : Option (List Char))
    (h1 : ¬(best = none ∧ jTrim part = ['*', '/', '*']))
    (h2 : ¬(List.isSuffixOf ['/', '*'] (jTrim part) = true ∧
      (best = none ∨ best = some ['*', '/', '*'])))
    (h3 : ¬((jTrim part).contains '/' = true ∧ (jTrim part).contains '*' = false)) :
    getTypeLoop (part :: rest) best = getTypeLoop rest best := by
  simp only [getTypeLoop]
  rw [if_neg h1, if_neg h2, if_neg h3]

/-- The `getType` scan computes, for each accumulator state: the first
fully specified entry, else the first `type/star` entry, else the held
wildcard state. -/
theorem getTypeLoop_characterization (parts : List (List Char)) :
    getTypeLoop parts none =
      (((parts.map jTrim).find? isFullySpecified) <|>
        (((parts.map jTrim).find? isTypeStar) <|>
          (if (parts.map jTrim).contains ['*', '/', '*'] then some ['*', '/', '*'] else none))) ∧
    getTypeLoop parts (some ['*', '/', '*']) =
      (((parts.map jTrim).find? isFullySpecified) <|>
        (((parts.map jTrim).find? isTypeStar) <|> some ['*', '/', '*'])) ∧
    ∀ t, isTypeStar t = true →
      getTypeLoop parts (some t) = (((parts.map jTrim).find? isFullySpecified) <|> some t) := by
  have hfsS : isFullySpecified ['*', '/', '*'] = false := by decide
  have htsS : isTypeStar ['*', '/', '*'] = false := by decide
  have hsufS : List.isSuffixOf ['/', '*'] ['*', '/', '*'] = true := by decide
  induction parts with
  | nil => exact ⟨rfl, rfl, fun t _ => rfl⟩
  | cons part rest ih =>
    obtain ⟨ih1, ih2, ih3⟩ := ih
    by_cases hA : jTrim part = ['*', '/', '*']
    · have hfs : isFullySpecified (jTrim part) = false := by rw [hA]; exact hfsS
      have hts : isTypeStar (jTrim part) = false := by rw [hA]; exact htsS
      have hsuf : List.isSuffixOf ['/', '*'] (jTrim part) = true := by rw [hA]; exact hsufS
      refine ⟨?_, ?_, ?_⟩
      · rw [getTypeLoop_cons_hit1 part rest none ⟨rfl, hA⟩, hA, ih2]
        simp only [List.map_cons]
        rw [List.find?_cons_of_neg _ (by simp [hfs]), List.find?_cons_of_neg _ (by simp [hts])]
        simp [List.contains_cons, hA]
      · rw [getTypeLoop_cons_hit2 part rest (some ['*', '/', '*']) (by simp) ⟨hsuf, Or.inr rfl⟩,
            hA, ih2]
        simp only [List.map_cons]
        rw [List.find?_cons_of_neg _ (by simp [hfs]), List.find?_cons_of_neg _ (by simp [hts])]
      · intro t ht
        have htne : t ≠ ['*', '/', '*'] := isTypeStar_ne_star t ht
        have hstarA : (jTrim part).contains '*' = true := contains_star_of_suffix _ hsuf
        rw [getTypeLoop_cons_skip part rest (some t) (by simp) (by simp [htne])
              (fun hx => Bool.noConfusion (hstarA.symm.trans hx.2)),
            ih3 t ht]
        simp only [List.map_cons]
        rw [List.find?_cons_of_neg _ (by simp [hfs])]
    · by_cases hB : isTypeStar (jTrim part) = true
      · have hsuf := isTypeStar_suffix _ hB
        have hstar := contains_star_of_suffix _ hsuf
        have hfs := fs_false_of_star _ hstar
        have hc3 : ¬((jTrim part).contains '/' = true ∧ (jTrim part).contains '*' = false) :=
          fun hx => Bool.noConfusion (hstar.symm.trans hx.2)
        refine ⟨?_, ?_, ?_⟩
        · rw [getTypeLoop_cons_hit2 part rest none (by simp [hA]) ⟨hsuf, Or.inl rfl⟩, ih3 _ hB]
          simp only [List.map_cons]
          rw [List.find?_cons_of_neg _ (by simp [hfs]), List.find?_cons_of_pos _ hB]
          simp
        · rw [getTypeLoop_cons_hit2 part rest (some ['*', '/', '*']) (by simp) ⟨hsuf, Or.inr rfl⟩,
              ih3 _ hB]
          simp only [List.map_cons]
          rw [List.find?_cons_of_neg _ (by simp [hfs]), List.find?_cons_of_pos _ hB]
          simp
        · intro t ht
          have htne : t ≠ ['*', '/', '*'] := isTypeStar_ne_star t ht
          rw [getTypeLoop_cons_skip part rest (some t) (by simp) (by simp [htne]) hc3, ih3 t ht]
          simp only [List.map_cons]
          rw [List.find?_cons_of_neg _ (by simp [hfs])]
      · by_cases hC : isFullySpecified (jTrim part) = true
        · have hslash := isFullySpecified_slash _ hC
          have hstarf := isFullySpecified_nostar _ hC
          have hsuf_false : List.isSuffixOf ['/', '*'] (jTrim part) = false := by
            cases hx : List.isSuffixOf ['/', '*'] (jTrim part)
            · rfl
            · rw [contains_star_of_suffix _ hx] at hstarf
              simp at hstarf
          have hsufn : ¬(List.isSuffixOf ['/', '*'] (jTrim part) = true ∧
              ((none : Option (List Char)) = none ∨
                (none : Option (List Char)) = some ['*', '/', '*'])) :=
            fun hx => Bool.noConfusion (hsuf_false.symm.trans hx.1)
          refine ⟨?_, ?_, ?_⟩
          · rw [getTypeLoop_cons_hit3 part rest none (by simp [hA])
                  (fun hx => Bool.noConfusion (hsuf_false.symm.trans hx.1)) ⟨hslash, hstarf⟩]
            simp only [List.map_cons]
            rw [List.find?_cons_of_pos _ hC]
            simp
          · rw [getTypeLoop_cons_hit3 part rest (some ['*', '/', '*']) (by simp)
                  (fun hx => Bool.noConfusion (hsuf_false.symm.trans hx.1)) ⟨hslash, hstarf⟩]
            simp only [List.map_cons]
            rw [List.find?_cons_of_pos _ hC]
            simp
          · intro t ht
            rw [getTypeLoop_cons_hit3 part rest (some t) (by simp)
                  (fun hx => Bool.noConfusion (hsuf_false.symm.trans hx.1)) ⟨hslash, hstarf⟩]
            simp only [List.map_cons]
            rw [List.find?_cons_of_pos _ hC]
            simp
        · have hBf : isTypeStar (jTrim part) = false := Bool.not_eq_true _ ▸ hB
          have hCf : isFullySpecified (jTrim part) = false := Bool.not_eq_true _ ▸ hC
          have hsuf_false := suffix_false_of_not_ts _ hA hBf
          have hc3 := not_fs_conditions _ hCf
          refine ⟨?_, ?_, ?_⟩
          · rw [getTypeLoop_cons_skip part rest none (by simp [hA])
                  (fun hx => Bool.noConfusion (hsuf_false.symm.trans hx.1)) hc3, ih1]
            simp only [List.map_cons]
            rw [List.find?_cons_of_neg _ (by simp [hCf]), List.find?_cons_of_neg _ (by simp [hBf])]
            simp [List.contains_cons, Ne.symm hA]
          · rw [getTypeLoop_cons_skip part rest (some ['*', '/', '*']) (by simp)
                  (fun hx => Bool.noConfusion (hsuf_false.symm.trans hx.1)) hc3, ih2]
            simp only [List.map_cons]
            rw [List.find?_cons_of_neg _ (by simp [hCf]), List.find?_cons_of_neg _ (by simp [hBf])]
          · intro t ht
            rw [getTypeLoop_cons_skip part rest (some t) (by simp)
                  (fun hx => Bool.noConfusion (hsuf_false.symm.trans hx.1)) hc3, ih3 t ht]
            simp only [List.map_cons]
            rw [List.find?_cons_of_neg _ (by simp [hCf])]

/-- C9: `getType` returns the first fully-specified `type/subtype` entry
of its comma/semicolon-split, trimmed input; failing that the first
`type/star` entry, then the full wildcard; the default is returned when
nothing was selected (empty input included) or when `noWildcard` rejects a
wildcard selection. -/
theorem getType_matches_spec (str dflt : List Char) (noWildcard : Bool) :
    getType str dflt noWildcard = getTypeSpec str dflt noWildcard := by
  simp only [getType, getTypeSpec]
  rw [(getTypeLoop_characterization (splitAny str)).1]
